import Mathlib

/-
Verification of the rate-limiting core of this repository.

Two implementations are embedded:
* the fixed-window counter middleware (rateLimiter.js, `rateLimit`):
  per-client record { count, startTime }, reset when the elapsed time
  reaches the window, block when the (already incremented) count exceeds
  the limit;
* the sliding-window middleware (middleware/rateLimiter.js in the
  Express notes, `rateLimiter` with `requestStore`): per-client array of
  request timestamps, filtered by `now - timestamp < WINDOW_MS`, reject
  when the pruned length reaches MAX_REQUESTS, otherwise push `now`;
  plus the periodic cleanup (`sweepExpired`) that filters every entry
  and deletes clients whose filtered array is empty.

Client keys are kept abstract (the source uses `req.ip` strings, but
only equality of keys is ever used). Timestamps and the fixed-window
counter are integers, mirroring JavaScript number arithmetic on
millisecond timestamps.
-/

namespace RateLimiter

variable {K : Type} [DecidableEq K]

/-- An in-memory store keyed by client, `requests` / `requestStore` in the
source: a client either has no record yet or has one record. -/
abbrev Store (K V : Type) := K → Option V

/-- The store before any request has been seen (`const requests = {}`). -/
def emptyStore {K V : Type} : Store K V := fun _ => none

/-- Configuration of the fixed-window limiter: `rateLimit(limit, windowMs)`. -/
structure FixedConfig where
  limit : Int
  windowMs : Int
deriving DecidableEq

/-- Per-client record of the fixed-window limiter:
`requests[ip] = { count, startTime }`. -/
structure FixedRec where
  count : Int
  startTime : Int
deriving DecidableEq

/-- The record stored for a client by the fixed-window middleware body:
create `{ count: 1, startTime: now }` for an unseen client; otherwise
increment the count while `now - startTime < windowMs`, else reset to
`{ count: 1, startTime: now }`. -/
def fixedNextRec (cfg : FixedConfig) (old : Option FixedRec) (now : Int) : FixedRec :=
  match old with
  | none => { count := 1, startTime := now }
  | some r =>
      if now - r.startTime < cfg.windowMs then
        { count := r.count + 1, startTime := r.startTime }
      else
        { count := 1, startTime := now }

/-- One fixed-window decision for a single client: the stored record is
updated first, then the request is blocked exactly when
`requests[ip].count > limit`. Returns (admitted?, stored record). -/
def fixedStep (cfg : FixedConfig) (old : Option FixedRec) (now : Int) : Bool × FixedRec :=
  if cfg.limit < (fixedNextRec cfg old now).count then (false, fixedNextRec cfg old now)
  else (true, fixedNextRec cfg old now)

/-- The fixed-window middleware acting on the whole store. -/
def fixedCheck (cfg : FixedConfig) (s : Store K FixedRec) (k : K) (now : Int) :
    Bool × Store K FixedRec :=
  let d := fixedStep cfg (s k) now
  (d.1, fun q => if q = k then some d.2 else s q)

/-- Run the fixed-window middleware over a sequence of (client, time)
requests, returning the final store and the admitted requests. -/
def fixedRun (cfg : FixedConfig) (s : Store K FixedRec) :
    List (K × Int) → Store K FixedRec × List (K × Int)
  | [] => (s, [])
  | p :: rs =>
    let d := fixedCheck cfg s p.1 p.2
    let t := fixedRun cfg d.2 rs
    (t.1, if d.1 then p :: t.2 else t.2)

/-- Run the fixed-window limiter for a single client from a given stored
record, returning the final record and the admitted timestamps. -/
def fixedRunRec (cfg : FixedConfig) (r : FixedRec) : List Int → FixedRec × List Int
  | [] => (r, [])
  | v :: ts =>
    let d := fixedStep cfg (some r) v
    let t := fixedRunRec cfg d.2 ts
    (t.1, if d.1 then v :: t.2 else t.2)

/-- Configuration of the sliding-window limiter
(`MAX_REQUESTS`, `WINDOW_MS`). -/
structure SlidingConfig where
  maxRequests : Nat
  windowMs : Int
deriving DecidableEq

/-- `requestStore[ip].filter(timestamp => now - timestamp < WINDOW_MS)`:
drop every stored timestamp outside the trailing window. -/
def prune (w now : Int) (l : List Int) : List Int :=
  l.filter fun ts => decide (now - ts < w)

/-- One sliding-window decision for a single client: prune, then reject
(keeping the pruned array) when `length >= MAX_REQUESTS`, else push `now`
and admit. Returns (admitted?, stored array). -/
def slidingStep (cfg : SlidingConfig) (l : List Int) (now : Int) : Bool × List Int :=
  if cfg.maxRequests ≤ (prune cfg.windowMs now l).length then (false, prune cfg.windowMs now l)
  else (true, prune cfg.windowMs now l ++ [now])

/-- The sliding-window middleware acting on the whole store; an unseen
client is first initialized to the empty array
(`if (!requestStore[ip]) requestStore[ip] = []`). -/
def slidingCheck (cfg : SlidingConfig) (s : Store K (List Int)) (k : K) (now : Int) :
    Bool × Store K (List Int) :=
  let d := slidingStep cfg ((s k).getD []) now
  (d.1, fun q => if q = k then some d.2 else s q)

/-- Run the sliding-window middleware over a sequence of (client, time)
requests, returning the final store and the admitted requests. -/
def slidingRun (cfg : SlidingConfig) (s : Store K (List Int)) :
    List (K × Int) → Store K (List Int) × List (K × Int)
  | [] => (s, [])
  | p :: rs =>
    let d := slidingCheck cfg s p.1 p.2
    let t := slidingRun cfg d.2 rs
    (t.1, if d.1 then p :: t.2 else t.2)

/-- Run the sliding-window limiter for a single client from a given stored
array, returning the final array and the admitted timestamps. -/
def slidingRunList (cfg : SlidingConfig) (l : List Int) : List Int → List Int × List Int
  | [] => (l, [])
  | v :: ts =>
    let d := slidingStep cfg l v
    let t := slidingRunList cfg d.2 ts
    (t.1, if d.1 then v :: t.2 else t.2)

/-- The periodic cleanup of the sliding-window limiter: filter every
client's array by the window test and delete the client when the filtered
array is empty. -/
def sweepExpired (w now : Int) (s : Store K (List Int)) : Store K (List Int) :=
  fun q =>
    match s q with
    | none => none
    | some l => if (prune w now l).isEmpty then none else some (prune w now l)

/-- Membership of a timestamp in the half-open interval [a, a + w). -/
def inWindow (w a t : Int) : Bool := decide (a ≤ t) && decide (t < a + w)

/-- The timestamps of the requests of client `k` in a request sequence. -/
def keyTimes (k : K) (rs : List (K × Int)) : List Int :=
  (rs.filter fun p => decide (p.1 = k)).map Prod.snd

/-! ### Basic equations -/

lemma fixedNextRec_none (cfg : FixedConfig) (now : Int) :
    fixedNextRec cfg none now = { count := 1, startTime := now } := rfl

lemma fixedNextRec_some (cfg : FixedConfig) (r : FixedRec) (now : Int) :
    fixedNextRec cfg (some r) now =
      if now - r.startTime < cfg.windowMs then
        { count := r.count + 1, startTime := r.startTime }
      else
        { count := 1, startTime := now } := rfl

lemma fixedStep_reject (cfg : FixedConfig) (old : Option FixedRec) (now : Int)
    (h : cfg.limit < (fixedNextRec cfg old now).count) :
    fixedStep cfg old now = (false, fixedNextRec cfg old now) := by
  unfold fixedStep
  rw [if_pos h]

lemma fixedStep_pass (cfg : FixedConfig) (old : Option FixedRec) (now : Int)
    (h : ¬ cfg.limit < (fixedNextRec cfg old now).count) :
    fixedStep cfg old now = (true, fixedNextRec cfg old now) := by
  unfold fixedStep
  rw [if_neg h]

lemma fixedStep_snd (cfg : FixedConfig) (old : Option FixedRec) (now : Int) :
    (fixedStep cfg old now).2 = fixedNextRec cfg old now := by
  unfold fixedStep
  by_cases h : cfg.limit < (fixedNextRec cfg old now).count
  · rw [if_pos h]
  · rw [if_neg h]

lemma fixedCheck_fst (cfg : FixedConfig) (s : Store K FixedRec) (k : K) (now : Int) :
    (fixedCheck cfg s k now).1 = (fixedStep cfg (s k) now).1 := rfl

lemma fixedCheck_self (cfg : FixedConfig) (s : Store K FixedRec) (k : K) (now : Int) :
    (fixedCheck cfg s k now).2 k = some (fixedStep cfg (s k) now).2 := by
  show (if k = k then some (fixedStep cfg (s k) now).2 else s k) =
    some (fixedStep cfg (s k) now).2
  rw [if_pos rfl]

lemma fixedCheck_other (cfg : FixedConfig) (s : Store K FixedRec) (k q : K) (now : Int)
    (h : q ≠ k) : (fixedCheck cfg s k now).2 q = s q := by
  show (if q = k then some (fixedStep cfg (s k) now).2 else s q) = s q
  rw [if_neg h]

lemma slidingStep_reject (cfg : SlidingConfig) (l : List Int) (now : Int)
    (h : cfg.maxRequests ≤ (prune cfg.windowMs now l).length) :
    slidingStep cfg l now = (false, prune cfg.windowMs now l) := by
  unfold slidingStep
  rw [if_pos h]

lemma slidingStep_pass (cfg : SlidingConfig) (l : List Int) (now : Int)
    (h : ¬ cfg.maxRequests ≤ (prune cfg.windowMs now l).length) :
    slidingStep cfg l now = (true, prune cfg.windowMs now l ++ [now]) := by
  unfold slidingStep
  rw [if_neg h]

lemma slidingCheck_fst (cfg : SlidingConfig) (s : Store K (List Int)) (k : K) (now : Int) :
    (slidingCheck cfg s k now).1 = (slidingStep cfg ((s k).getD []) now).1 := rfl

lemma slidingCheck_self (cfg : SlidingConfig) (s : Store K (List Int)) (k : K) (now : Int) :
    (slidingCheck cfg s k now).2 k = some (slidingStep cfg ((s k).getD []) now).2 := by
  show (if k = k then some (slidingStep cfg ((s k).getD []) now).2 else s k) =
    some (slidingStep cfg ((s k).getD []) now).2
  rw [if_pos rfl]

lemma slidingCheck_other (cfg : SlidingConfig) (s : Store K (List Int)) (k q : K) (now : Int)
    (h : q ≠ k) : (slidingCheck cfg s k now).2 q = s q := by
  show (if q = k then some (slidingStep cfg ((s k).getD []) now).2 else s q) = s q
  rw [if_neg h]

/-! ### Helper lemmas -/

lemma prune_idem (w now : Int) (l : List Int) :
    prune w now (prune w now l) = prune w now l := by
  unfold prune
  exact List.filter_eq_self.mpr fun a ha => (List.mem_filter.mp ha).2

lemma mem_prune (w now : Int) (l : List Int) (ts : Int) (h : ts ∈ prune w now l) :
    ts ∈ l ∧ now - ts < w := by
  unfold prune at h
  refine ⟨(List.mem_filter.mp h).1, ?_⟩
  have := (List.mem_filter.mp h).2
  rwa [decide_eq_true_eq] at this

lemma mem_slidingStep (cfg : SlidingConfig) (l : List Int) (now : Int)
    (hw : 0 < cfg.windowMs) :
    ∀ ts ∈ (slidingStep cfg l now).2, now - cfg.windowMs < ts := by
  intro ts hts
  by_cases hc : cfg.maxRequests ≤ (prune cfg.windowMs now l).length
  · rw [slidingStep_reject cfg l now hc] at hts
    have := (mem_prune _ _ _ _ hts).2
    omega
  · rw [slidingStep_pass cfg l now hc] at hts
    rcases List.mem_append.mp hts with h | h
    · have := (mem_prune _ _ _ _ h).2
      omega
    · rw [List.mem_singleton] at h
      omega

lemma fixedStep_reject_count (cfg : FixedConfig) (old : Option FixedRec) (now : Int)
    (h : (fixedStep cfg old now).1 = false) :
    cfg.limit < (fixedStep cfg old now).2.count := by
  by_cases hc : cfg.limit < (fixedNextRec cfg old now).count
  · rw [fixedStep_reject cfg old now hc]
    exact hc
  · rw [fixedStep_pass cfg old now hc] at h
    exact absurd h (by simp)

lemma mem_fixedRunRec (cfg : FixedConfig) :
    ∀ (ts : List Int) (r : FixedRec) (x : Int), x ∈ (fixedRunRec cfg r ts).2 → x ∈ ts := by
  intro ts
  induction ts with
  | nil => intro r x hx; simp [fixedRunRec] at hx
  | cons v ts ih =>
    intro r x hx
    simp only [fixedRunRec] at hx
    by_cases hd : (fixedStep cfg (some r) v).1 = true
    · rw [if_pos hd] at hx
      rcases List.mem_cons.mp hx with h | h
      · exact h ▸ List.mem_cons_self v ts
      · exact List.mem_cons_of_mem v (ih _ x h)
    · rw [if_neg hd] at hx
      exact List.mem_cons_of_mem v (ih _ x hx)

/-- Once the stored fixed-window count is above the limit, no request is
admitted until the window start advances by at least the window length. -/
lemma fixedRunRec_reject_persists (cfg : FixedConfig) :
    ∀ (ts : List Int) (r : FixedRec), ts.Pairwise (· ≤ ·) → cfg.limit < r.count →
      ∀ x ∈ (fixedRunRec cfg r ts).2, cfg.windowMs ≤ x - r.startTime := by
  intro ts
  induction ts with
  | nil => intro r _ _ x hx; simp [fixedRunRec] at hx
  | cons v ts ih =>
    intro r hpw hcnt x hx
    have hpw2 : ts.Pairwise (· ≤ ·) := (List.pairwise_cons.mp hpw).2
    have hvts : ∀ b ∈ ts, v ≤ b := (List.pairwise_cons.mp hpw).1
    simp only [fixedRunRec] at hx
    by_cases hb : v - r.startTime < cfg.windowMs
    · have hrec : fixedNextRec cfg (some r) v =
          { count := r.count + 1, startTime := r.startTime } := by
        rw [fixedNextRec_some, if_pos hb]
      have hc : cfg.limit < (fixedNextRec cfg (some r) v).count := by
        rw [hrec]
        show cfg.limit < r.count + 1
        omega
      have hstep : fixedStep cfg (some r) v =
          (false, { count := r.count + 1, startTime := r.startTime }) := by
        rw [fixedStep_reject cfg (some r) v hc, hrec]
      rw [hstep] at hx
      simp only [Bool.false_eq_true, if_false] at hx
      have := ih { count := r.count + 1, startTime := r.startTime } hpw2
        (by show cfg.limit < r.count + 1; omega) x hx
      exact this
    · have hsnd : (fixedStep cfg (some r) v).2 = { count := 1, startTime := v } := by
        rw [fixedStep_snd, fixedNextRec_some, if_neg hb]
      have hxv : x = v ∨ x ∈ (fixedRunRec cfg (fixedStep cfg (some r) v).2 ts).2 := by
        by_cases hd : (fixedStep cfg (some r) v).1 = true
        · rw [if_pos hd] at hx
          exact List.mem_cons.mp hx
        · rw [if_neg hd] at hx
          exact Or.inr hx
      rcases hxv with h | h
      · omega
      · have hxts : x ∈ ts := mem_fixedRunRec cfg ts _ x h
        have := hvts x hxts
        omega

lemma keyTimes_cons (k : K) (p : K × Int) (rs : List (K × Int)) :
    keyTimes k (p :: rs) =
      if p.1 = k then p.2 :: keyTimes k rs else keyTimes k rs := by
  unfold keyTimes
  by_cases h : p.1 = k
  · simp [List.filter_cons, h]
  · simp [List.filter_cons, h]

lemma countP_keyTimes (k : K) (q : Int → Bool) :
    ∀ rs : List (K × Int),
      rs.countP (fun p => decide (p.1 = k) && q p.2) = (keyTimes k rs).countP q := by
  intro rs
  induction rs with
  | nil => simp [keyTimes]
  | cons p rs ih =>
    rw [keyTimes_cons, List.countP_cons]
    by_cases h : p.1 = k
    · rw [if_pos h, List.countP_cons, ih]
      by_cases hq : q p.2 = true
      · simp [h, hq]
      · simp [h, hq]
    · rw [if_neg h, ih]
      simp [h]

/-- Per-key projection: the sliding-window run of the whole store, seen at
one client, is the single-client run on that client's requests. -/
lemma slidingRun_proj (cfg : SlidingConfig) (k : K) :
    ∀ (rs : List (K × Int)) (s : Store K (List Int)),
      ((slidingRun cfg s rs).1 k).getD [] =
          (slidingRunList cfg ((s k).getD []) (keyTimes k rs)).1 ∧
        keyTimes k (slidingRun cfg s rs).2 =
          (slidingRunList cfg ((s k).getD []) (keyTimes k rs)).2 := by
  intro rs
  induction rs with
  | nil =>
    intro s
    constructor
    · simp [slidingRun, keyTimes, slidingRunList]
    · simp [slidingRun, keyTimes, slidingRunList]
  | cons p rs ih =>
    intro s
    obtain ⟨p1, p2⟩ := p
    by_cases hk : p1 = k
    · subst hk
      have hstore : (slidingCheck cfg s p1 p2).2 p1 =
          some (slidingStep cfg ((s p1).getD []) p2).2 := slidingCheck_self cfg s p1 p2
      have ihs := ih (slidingCheck cfg s p1 p2).2
      rw [hstore] at ihs
      simp only [Option.getD_some] at ihs
      have hkt : keyTimes p1 ((p1, p2) :: rs) = p2 :: keyTimes p1 rs := by
        rw [keyTimes_cons, if_pos rfl]
      constructor
      · simp only [slidingRun, hkt, slidingRunList]
        exact ihs.1
      · simp only [slidingRun, hkt, slidingRunList]
        by_cases hd : (slidingStep cfg ((s p1).getD []) p2).1 = true
        · have hd2 : (slidingCheck cfg s p1 p2).1 = true := by
            rw [slidingCheck_fst]
            exact hd
          rw [if_pos hd2, if_pos hd, keyTimes_cons, if_pos rfl]
          exact congrArg (p2 :: ·) ihs.2
        · have hd2 : ¬ ((slidingCheck cfg s p1 p2).1 = true) := by
            rw [slidingCheck_fst]
            exact hd
          rw [if_neg hd2, if_neg hd]
          exact ihs.2
    · have hstore : (slidingCheck cfg s p1 p2).2 k = s k :=
        slidingCheck_other cfg s p1 k p2 (fun h => hk h.symm)
      have ihs := ih (slidingCheck cfg s p1 p2).2
      rw [hstore] at ihs
      have hkt : keyTimes k ((p1, p2) :: rs) = keyTimes k rs := by
        rw [keyTimes_cons, if_neg hk]
      constructor
      · simp only [slidingRun, hkt]
        exact ihs.1
      · simp only [slidingRun, hkt]
        by_cases hd : (slidingCheck cfg s p1 p2).1 = true
        · rw [if_pos hd, keyTimes_cons, if_neg hk]
          exact ihs.2
        · rw [if_neg hd]
          exact ihs.2

lemma filter_filter_of_imp (p q : Int → Bool) :
    ∀ P : List Int, (∀ t ∈ P, q t = true → p t = true) →
      (P.filter p).filter q = P.filter q := by
  intro P
  induction P with
  | nil => intro _; rfl
  | cons a P ih =>
    intro h
    have ih2 := ih fun t ht => h t (List.mem_cons_of_mem a ht)
    by_cases hq : q a = true
    · have hp : p a = true := h a (List.mem_cons_self a P) hq
      simp [List.filter_cons, hp, hq, ih2]
    · by_cases hp : p a = true
      · simp [List.filter_cons, hp, hq, ih2]
      · simp [List.filter_cons, hp, hq, ih2]

lemma inWindow_imp_near (w a v t : Int) (hv : inWindow w a v = true)
    (ht : inWindow w a t = true) : v - t < w := by
  unfold inWindow at hv ht
  rw [Bool.and_eq_true, decide_eq_true_eq, decide_eq_true_eq] at hv ht
  omega

/-- Main invariant of the sliding-window limiter: starting from a stored
array that is exactly the filtered list of previously admitted timestamps,
a monotone sequence of further requests keeps the number of admitted
timestamps in every half-open interval of one window length at or below
`maxRequests`. -/
lemma slidingRunList_bound (cfg : SlidingConfig) (hw : 0 < cfg.windowMs) :
    ∀ (ts P l : List Int) (u : Int),
      ts.Pairwise (· ≤ ·) → (∀ t ∈ ts, u ≤ t) → (∀ t ∈ P, t ≤ u) →
      l = P.filter (fun t => decide (u - t < cfg.windowMs)) →
      (∀ a, P.countP (inWindow cfg.windowMs a) ≤ cfg.maxRequests) →
      ∀ a, (P ++ (slidingRunList cfg l ts).2).countP (inWindow cfg.windowMs a) ≤
        cfg.maxRequests := by
  intro ts
  induction ts with
  | nil =>
    intro P l u _ _ _ _ hcnt a
    simpa [slidingRunList] using hcnt a
  | cons v ts ih =>
    intro P l u hpw hu hP hl hcnt a
    have hpw2 : ts.Pairwise (· ≤ ·) := (List.pairwise_cons.mp hpw).2
    have hvts : ∀ b ∈ ts, v ≤ b := (List.pairwise_cons.mp hpw).1
    have huv : u ≤ v := hu v (List.mem_cons_self v ts)
    have hprune : prune cfg.windowMs v l =
        P.filter (fun t => decide (v - t < cfg.windowMs)) := by
      rw [hl]
      unfold prune
      apply filter_filter_of_imp
      intro t ht h2
      rw [decide_eq_true_eq] at h2 ⊢
      have := hP t ht
      omega
    by_cases hadm : cfg.maxRequests ≤ (prune cfg.windowMs v l).length
    · -- rejected: the stored array is the pruned array, nothing is admitted
      simp only [slidingRunList, slidingStep_reject cfg l v hadm, Bool.false_eq_true,
        if_false]
      exact ih P (prune cfg.windowMs v l) v hpw2 hvts
        (fun t ht => le_trans (hP t ht) huv) hprune hcnt a
    · -- admitted: `v` is appended both to the array and to the admitted list
      simp only [slidingRunList, slidingStep_pass cfg l v hadm, if_true]
      have hself : decide (v - v < cfg.windowMs) = true := by
        rw [decide_eq_true_eq]
        omega
      have hfv : List.filter (fun t => decide (v - t < cfg.windowMs)) [v] = [v] := by
        simp only [List.filter_cons, List.filter_nil]
        rw [if_pos hself]
      have hl2 : prune cfg.windowMs v l ++ [v] =
          (P ++ [v]).filter (fun t => decide (v - t < cfg.windowMs)) := by
        rw [List.filter_append, hprune, hfv]
      have hcnt2 : ∀ a2, (P ++ [v]).countP (inWindow cfg.windowMs a2) ≤
          cfg.maxRequests := by
        intro a2
        rw [List.countP_append]
        by_cases hin : inWindow cfg.windowMs a2 v = true
        · have hmono : P.countP (inWindow cfg.windowMs a2) ≤
              P.countP (fun t => decide (v - t < cfg.windowMs)) := by
            apply List.countP_mono_left
            intro t ht h2
            rw [decide_eq_true_eq]
            exact inWindow_imp_near cfg.windowMs a2 v t hin h2
          have hlen : P.countP (fun t => decide (v - t < cfg.windowMs)) =
              (prune cfg.windowMs v l).length := by
            rw [hprune, List.countP_eq_length_filter]
          have hlt : (prune cfg.windowMs v l).length < cfg.maxRequests :=
            Nat.not_le.mp hadm
          have hone : List.countP (inWindow cfg.windowMs a2) [v] = 1 := by
            simp [List.countP_cons, hin]
          omega
        · have hzero : List.countP (inWindow cfg.windowMs a2) [v] = 0 := by
            simp [List.countP_cons, hin]
          have := hcnt a2
          omega
      have hres := ih (P ++ [v]) (prune cfg.windowMs v l ++ [v]) v hpw2 hvts
        (fun t ht => by
          rcases List.mem_append.mp ht with h | h
          · exact le_trans (hP t h) huv
          · rw [List.mem_singleton] at h
            omega)
        hl2 hcnt2 a
      rw [List.append_assoc] at hres
      simpa using hres

/-! ### Claims -/

/-- Claim C1 (amended): for every client key and every configuration with
`limit > 0` and `windowDurationMs > 0`, and for every sequence of
`checkAndRecord` calls with non-decreasing timestamps, the number of
admitted requests from that client whose timestamps fall within any single
interval of length `windowDurationMs` does not exceed the limit — for the
sliding-window implementation. (The fixed-window implementation violates
this bound across a window reset; see the counterexample.) -/
theorem claim_C1 (cfg : SlidingConfig) (rs : List (K × Int)) (k : K) (a : Int)
    (_hl : 0 < cfg.maxRequests) (hw : 0 < cfg.windowMs)
    (hmono : (rs.map Prod.snd).Pairwise (· ≤ ·)) :
    (slidingRun cfg (emptyStore : Store K (List Int)) rs).2.countP
        (fun p => decide (p.1 = k) && inWindow cfg.windowMs a p.2) ≤
      cfg.maxRequests := by
  rw [countP_keyTimes]
  have hproj := (slidingRun_proj cfg k rs (emptyStore : Store K (List Int))).2
  rw [hproj]
  have hkts : (keyTimes k rs).Pairwise (· ≤ ·) := by
    apply hmono.sublist
    unfold keyTimes
    exact List.Sublist.map Prod.snd (List.filter_sublist rs)
  show (slidingRunList cfg ((none : Option (List Int)).getD []) (keyTimes k rs)).2.countP
      (inWindow cfg.windowMs a) ≤ cfg.maxRequests
  rw [Option.getD_none]
  cases hks : keyTimes k rs with
  | nil => simp [slidingRunList]
  | cons h t =>
    rw [hks] at hkts
    have hu : ∀ x ∈ h :: t, h ≤ x := by
      intro x hx
      rcases List.mem_cons.mp hx with h2 | h2
      · omega
      · exact (List.pairwise_cons.mp hkts).1 x h2
    have hb := slidingRunList_bound cfg hw (h :: t) [] [] h hkts hu
      (fun x hx => absurd hx (List.not_mem_nil x)) rfl
      (fun a2 => by simp) a
    simpa using hb

/-- Claim C1 counterexample: the fixed-window implementation admits three
requests of one client inside the half-open interval [999, 1999) of one
window length 1000 although the limit is 2, on the monotone trace
0, 999, 1000, 1001 (the window resets at time 1000). -/
theorem claim_C1_cex :
    (0 : Nat) < 2 ∧ (0 : Int) < 1000 ∧
      (([(0, 0), (0, 999), (0, 1000), (0, 1001)] : List (Nat × Int)).map
          Prod.snd).Pairwise (· ≤ ·) ∧
      ¬ ((fixedRun { limit := 2, windowMs := 1000 } (emptyStore : Store Nat FixedRec)
            [(0, 0), (0, 999), (0, 1000), (0, 1001)]).2.countP
          (fun p => decide (p.1 = 0) && inWindow 1000 999 p.2) ≤ 2) := by
  refine ⟨by decide, by decide, by decide, ?_⟩
  decide

/-- Claim C1 witness: a concrete sliding-window trace satisfying the
hypotheses of the theorem. -/
theorem claim_C1_witness :
    (0 : Nat) < 2 ∧ (0 : Int) < 1000 ∧
      (([(0, 0), (0, 10), (0, 20)] : List (Nat × Int)).map Prod.snd).Pairwise (· ≤ ·) ∧
      (slidingRun { maxRequests := 2, windowMs := 1000 }
            (emptyStore : Store Nat (List Int)) [(0, 0), (0, 10), (0, 20)]).2.countP
          (fun p => decide (p.1 = 0) && inWindow 1000 0 p.2) ≤ 2 :=
  ⟨by decide, by decide, by decide,
    claim_C1 { maxRequests := 2, windowMs := 1000 } [(0, 0), (0, 10), (0, 20)] 0 0
      (by decide) (by decide) (by decide)⟩

/-- Claim C3: in the fixed-window implementation, a request arriving at
`now` with `now - windowStart` exactly equal to `windowDurationMs` causes a
window reset (`windowStart := now`, `count := 1`) and is admitted. -/
theorem claim_C3 (cfg : FixedConfig) (r : FixedRec) (t : Int)
    (hb : t - r.startTime = cfg.windowMs) (hl : 1 ≤ cfg.limit) :
    fixedStep cfg (some r) t = (true, { count := 1, startTime := t }) := by
  have h1 : ¬ (t - r.startTime < cfg.windowMs) := by omega
  have hrec : fixedNextRec cfg (some r) t = { count := 1, startTime := t } := by
    rw [fixedNextRec_some, if_neg h1]
  have h2 : ¬ cfg.limit < (fixedNextRec cfg (some r) t).count := by
    rw [hrec]
    show ¬ cfg.limit < 1
    omega
  rw [fixedStep_pass cfg (some r) t h2, hrec]

/-- Claim C3 witness: a concrete record at the exact window boundary. -/
theorem claim_C3_witness :
    (5 : Int) - (2 : Int) = (3 : Int) ∧ (1 : Int) ≤ 2 ∧
      fixedStep { limit := 2, windowMs := 3 } (some { count := 2, startTime := 2 }) 5 =
        (true, { count := 1, startTime := 5 }) :=
  ⟨by decide, by decide,
    claim_C3 { limit := 2, windowMs := 3 } { count := 2, startTime := 2 } 5
      (by decide) (by decide)⟩

/-- Claim C4: in the sliding-window implementation, immediately after every
`checkAndRecord` call at time `now`, the client's stored timestamp array
contains no entry older than `now - windowDurationMs`, and the admission
decision is made on the pruned array (admit exactly when its length is
below the limit). -/
theorem claim_C4 (cfg : SlidingConfig) (s : Store K (List Int)) (k : K) (now : Int)
    (hw : 0 < cfg.windowMs) :
    (((slidingCheck cfg s k now).2 k).getD []).countP
        (fun ts => decide (ts < now - cfg.windowMs)) = 0 ∧
      (slidingCheck cfg s k now).1 =
        decide ((prune cfg.windowMs now ((s k).getD [])).length < cfg.maxRequests) := by
  constructor
  · rw [slidingCheck_self, Option.getD_some]
    apply List.countP_eq_zero.mpr
    intro ts hts
    have h2 := mem_slidingStep cfg ((s k).getD []) now hw ts hts
    simp only [decide_eq_true_eq]
    omega
  · rw [slidingCheck_fst]
    by_cases hc : cfg.maxRequests ≤ (prune cfg.windowMs now ((s k).getD [])).length
    · rw [slidingStep_reject _ _ _ hc, decide_eq_false (Nat.not_lt.mpr hc)]
    · rw [slidingStep_pass _ _ _ hc, decide_eq_true (Nat.lt_of_not_le hc)]

/-- Claim C4 witness: a concrete store where pruning drops a stale entry
and the request is rejected. -/
theorem claim_C4_witness :
    (0 : Int) < 10 ∧
      ((((slidingCheck { maxRequests := 1, windowMs := 10 }
              (fun q => if q = (0 : Nat) then some [-20, 5] else none) 0 8).2 0).getD
            []).countP (fun ts => decide (ts < 8 - 10)) = 0 ∧
        (slidingCheck { maxRequests := 1, windowMs := 10 }
              (fun q => if q = (0 : Nat) then some [-20, 5] else none) 0 8).1 =
          decide ((prune 10 8 (((fun q =>
              if q = (0 : Nat) then some [-20, 5] else none) 0).getD [])).length < 1)) :=
  ⟨by decide,
    claim_C4 { maxRequests := 1, windowMs := 10 }
      (fun q => if q = (0 : Nat) then some [-20, 5] else none) 0 8 (by decide)⟩

omit [DecidableEq K] in
/-- Claim C7: the sweep is idempotent — running `sweepExpired` twice at the
same instant with no intervening requests equals running it once. -/
theorem claim_C7 (w now : Int) (s : Store K (List Int)) :
    sweepExpired w now (sweepExpired w now s) = sweepExpired w now s := by
  funext q
  unfold sweepExpired
  cases hs : s q with
  | none => rfl
  | some l =>
    show (match (if (prune w now l).isEmpty = true then none
        else some (prune w now l)) with
      | none => none
      | some l2 => if (prune w now l2).isEmpty = true then none
          else some (prune w now l2)) =
      if (prune w now l).isEmpty = true then none else some (prune w now l)
    by_cases he : (prune w now l).isEmpty = true
    · rw [if_pos he]
    · rw [if_neg he]
      show (if (prune w now (prune w now l)).isEmpty = true then none
        else some (prune w now (prune w now l))) = some (prune w now l)
      rw [prune_idem, if_neg he]

/-- Claim C10: sliding-window pruning discards a stored timestamp whose age
is exactly `windowDurationMs`, so a client that filled its whole budget at
time `t` is admitted again at exactly `t + windowDurationMs`. -/
theorem claim_C10 (cfg : SlidingConfig) (s : Store K (List Int)) (k : K) (t : Int)
    (hs : s k = some (List.replicate cfg.maxRequests t)) (hl : 0 < cfg.maxRequests) :
    prune cfg.windowMs (t + cfg.windowMs) (List.replicate cfg.maxRequests t) = [] ∧
      (slidingCheck cfg s k (t + cfg.windowMs)).1 = true := by
  have hp : prune cfg.windowMs (t + cfg.windowMs) (List.replicate cfg.maxRequests t) = [] := by
    unfold prune
    apply List.filter_eq_nil_iff.mpr
    intro x hx
    have hx2 : x = t := List.eq_of_mem_replicate hx
    subst hx2
    simp only [decide_eq_true_eq]
    omega
  refine ⟨hp, ?_⟩
  rw [slidingCheck_fst, hs, Option.getD_some]
  have hc : ¬ cfg.maxRequests ≤
      (prune cfg.windowMs (t + cfg.windowMs) (List.replicate cfg.maxRequests t)).length := by
    rw [hp]
    simp only [List.length_nil]
    omega
  rw [slidingStep_pass _ _ _ hc]

/-- Claim C2 (amended): in the sliding-window implementation a rejecting
`checkAndRecord` stores the pruned timestamp array without appending the
new timestamp; in the fixed-window implementation a rejecting call does
increment the stored count while keeping the window start, so the stored
count is not bounded by `limit + 1` under repeated rejections (see the
counterexample). -/
theorem claim_C2 (sc : SlidingConfig) (s : Store K (List Int)) (k : K) (now : Int)
    (fc : FixedConfig) (r : FixedRec) (t : Int)
    (hrej : (slidingCheck sc s k now).1 = false)
    (hrej2 : (fixedStep fc (some r) t).1 = false) (hl : 1 ≤ fc.limit) :
    (slidingCheck sc s k now).2 k = some (prune sc.windowMs now ((s k).getD [])) ∧
      (fixedStep fc (some r) t).2 = { count := r.count + 1, startTime := r.startTime } := by
  constructor
  · rw [slidingCheck_self]
    rw [slidingCheck_fst] at hrej
    by_cases hc : sc.maxRequests ≤ (prune sc.windowMs now ((s k).getD [])).length
    · rw [slidingStep_reject _ _ _ hc]
    · rw [slidingStep_pass _ _ _ hc] at hrej
      exact absurd hrej (by simp)
  · rw [fixedStep_snd]
    by_cases hb : t - r.startTime < fc.windowMs
    · rw [fixedNextRec_some, if_pos hb]
    · have hrec : fixedNextRec fc (some r) t = { count := 1, startTime := t } := by
        rw [fixedNextRec_some, if_neg hb]
      have h2 : ¬ fc.limit < (fixedNextRec fc (some r) t).count := by
        rw [hrec]
        show ¬ fc.limit < 1
        omega
      rw [fixedStep_pass _ _ _ h2] at hrej2
      exact absurd hrej2 (by simp)

/-- Claim C2 counterexample: with limit 1 and window 1000, three requests
of one client at times 0, 1, 2 leave the stored fixed-window count at 3,
which exceeds limit + 1 = 2 — the two rejected requests each incremented
the record. -/
theorem claim_C2_cex :
    ((fixedRun { limit := 1, windowMs := 1000 } (emptyStore : Store Nat FixedRec)
          [(0, 0), (0, 1), (0, 2)]).1 0) = some { count := 3, startTime := 0 } ∧
      (1 : Int) + 1 < 3 := by
  refine ⟨?_, by decide⟩
  decide

/-- Claim C2 witness: a concrete sliding-window rejection (stored array is
the pruned array) and a concrete fixed-window rejection (stored count is
incremented). -/
theorem claim_C2_witness :
    (slidingCheck { maxRequests := 1, windowMs := 10 }
          (fun q => if q = (0 : Nat) then some [5] else none) 0 6).1 = false ∧
      (fixedStep { limit := 1, windowMs := 1000 }
          (some { count := 1, startTime := 0 }) 1).1 = false ∧
      (1 : Int) ≤ 1 ∧
      ((slidingCheck { maxRequests := 1, windowMs := 10 }
            (fun q => if q = (0 : Nat) then some [5] else none) 0 6).2 0 =
          some (prune 10 6 (((fun q =>
            if q = (0 : Nat) then some [5] else none) 0).getD [])) ∧
        (fixedStep { limit := 1, windowMs := 1000 }
            (some { count := 1, startTime := 0 }) 1).2 =
          { count := 1 + 1, startTime := 0 }) :=
  ⟨by decide, by decide, by decide,
    claim_C2 { maxRequests := 1, windowMs := 10 }
      (fun q => if q = (0 : Nat) then some [5] else none) 0 6
      { limit := 1, windowMs := 1000 } { count := 1, startTime := 0 } 1
      (by decide) (by decide) (by decide)⟩

/-- Claim C5 (amended): records are created lazily on first request in both
implementations, and after the sliding-window `sweepExpired(now)` a client
is tracked exactly when its stored array holds a recorded (admitted)
timestamp within the last window before `now`. The fixed-window
implementation has no sweep and never deletes records (see the
counterexample). -/
theorem claim_C5 (w now : Int) (s : Store K (List Int)) (k : K)
    (fc : FixedConfig) (fs : Store K FixedRec) (sc : SlidingConfig)
    (gs : Store K (List Int)) (t : Int) (hf : fs k = none) :
    (((sweepExpired w now s) k).isSome = true ↔
        ∃ ts ∈ (s k).getD [], now - ts < w) ∧
      (fixedCheck fc fs k t).2 k = some { count := 1, startTime := t } ∧
      ((slidingCheck sc gs k t).2 k).isSome = true := by
  refine ⟨?_, ?_, ?_⟩
  · unfold sweepExpired
    cases hs : s k with
    | none => simp
    | some l =>
      rw [Option.getD_some]
      show (if (prune w now l).isEmpty = true then none
        else some (prune w now l)).isSome = true ↔ ∃ ts ∈ l, now - ts < w
      by_cases he : (prune w now l).isEmpty = true
      · rw [if_pos he]
        rw [List.isEmpty_iff] at he
        constructor
        · intro hfalse
          exact absurd hfalse (by simp)
        · rintro ⟨ts, hts, hlt⟩
          have hmem : ts ∈ prune w now l := by
            unfold prune
            exact List.mem_filter.mpr ⟨hts, by rw [decide_eq_true_eq]; exact hlt⟩
          rw [he] at hmem
          exact absurd hmem (List.not_mem_nil ts)
      · rw [if_neg he]
        rw [List.isEmpty_iff] at he
        simp only [Option.isSome_some, true_iff]
        obtain ⟨ts, hts⟩ := List.exists_mem_of_ne_nil _ he
        have h2 := mem_prune w now l ts hts
        exact ⟨ts, h2.1, h2.2⟩
  · rw [fixedCheck_self, fixedStep_snd, hf, fixedNextRec_none]
  · rw [slidingCheck_self]
    rfl

/-- Claim C5 counterexample: in the fixed-window implementation there is no
sweep — after a request of client 0 at time 0 and a request of client 1 at
time 5000 with window 1000, client 0 is still tracked although it has been
inactive for five window lengths. -/
theorem claim_C5_cex :
    ((fixedRun { limit := 10, windowMs := 1000 } (emptyStore : Store Nat FixedRec)
          [(0, 0), (1, 5000)]).1 0) = some { count := 1, startTime := 0 } ∧
      (1000 : Int) < 5000 - 0 := by
  refine ⟨?_, by decide⟩
  decide

/-- Claim C5 witness: a concrete sweep (client with one fresh and one stale
timestamp stays tracked) and concrete lazy creations. -/
theorem claim_C5_witness :
    (emptyStore : Store Nat FixedRec) 0 = none ∧
      ((((sweepExpired 10 100
              (fun q => if q = (0 : Nat) then some [95, 50] else none)) 0).isSome = true ↔
          ∃ ts ∈ ((fun q => if q = (0 : Nat) then some [95, 50] else none) 0).getD [],
            (100 : Int) - ts < 10) ∧
        (fixedCheck { limit := 3, windowMs := 1000 }
              (emptyStore : Store Nat FixedRec) 0 7).2 0 =
            some { count := 1, startTime := 7 } ∧
        ((slidingCheck { maxRequests := 3, windowMs := 1000 }
              (emptyStore : Store Nat (List Int)) 0 7).2 0).isSome = true) :=
  ⟨rfl,
    claim_C5 10 100 (fun q => if q = (0 : Nat) then some [95, 50] else none) 0
      { limit := 3, windowMs := 1000 } emptyStore
      { maxRequests := 3, windowMs := 1000 } emptyStore 7 rfl⟩

/-- Claim C6 (amended): neither implementation validates its configuration
at setup — with `limit ≤ 0` the fixed-window limiter still starts and
produces a per-request decision for every request: it rejects it (every
stored count is at least 1) while still creating the client's record. -/
theorem claim_C6 (cfg : FixedConfig) (s : Store K FixedRec) (k : K) (t : Int)
    (hl : cfg.limit ≤ 0) (hwf : ∀ r, s k = some r → 1 ≤ r.count) :
    (fixedCheck cfg s k t).1 = false ∧ ((fixedCheck cfg s k t).2 k).isSome = true := by
  have hcnt : 1 ≤ (fixedNextRec cfg (s k) t).count := by
    cases hs : s k with
    | none =>
      rw [fixedNextRec_none]
    | some r =>
      rw [fixedNextRec_some]
      by_cases hb : t - r.startTime < cfg.windowMs
      · rw [if_pos hb]
        have := hwf r hs
        show (1 : Int) ≤ r.count + 1
        omega
      · rw [if_neg hb]
  have hrej : cfg.limit < (fixedNextRec cfg (s k) t).count := by omega
  constructor
  · rw [fixedCheck_fst, fixedStep_reject _ _ _ hrej]
  · rw [fixedCheck_self]
    rfl

/-- Claim C6 counterexample: constructing the fixed-window limiter with
limit 0 does not fail — a per-request decision (a rejection) is produced
and the client record is created, so the configuration error surfaces at
request time, not at setup. -/
theorem claim_C6_cex :
    (fixedCheck { limit := 0, windowMs := 1000 }
          (emptyStore : Store Nat FixedRec) 0 5).1 = false ∧
      ((fixedCheck { limit := 0, windowMs := 1000 }
            (emptyStore : Store Nat FixedRec) 0 5).2 0).isSome = true := by
  refine ⟨?_, ?_⟩ <;> decide

/-- Claim C6 witness: the empty store satisfies the count hypothesis
vacuously. -/
theorem claim_C6_witness :
    (0 : Int) ≤ 0 ∧
      ((fixedCheck { limit := 0, windowMs := 2000 }
            (emptyStore : Store Nat FixedRec) 0 9).1 = false ∧
        ((fixedCheck { limit := 0, windowMs := 2000 }
              (emptyStore : Store Nat FixedRec) 0 9).2 0).isSome = true) :=
  ⟨le_refl 0,
    claim_C6 { limit := 0, windowMs := 2000 } emptyStore 0 9 (by decide)
      (fun r h => Option.noConfusion h)⟩

/-- Claim C8: distinct clients have independent budgets — a call for client
A leaves client B's record unchanged (both implementations), and both the
decision and the updated record for a call of client B depend only on B's
own stored record and the timestamp. -/
theorem claim_C8 (fc : FixedConfig) (sc : SlidingConfig)
    (s : Store K FixedRec) (s2 : Store K (List Int))
    (f1 f2 : Store K FixedRec) (g1 g2 : Store K (List Int))
    (A B : K) (t u : Int) (hAB : A ≠ B) (hf : f1 B = f2 B) (hg : g1 B = g2 B) :
    (fixedCheck fc s A t).2 B = s B ∧
      (slidingCheck sc s2 A t).2 B = s2 B ∧
      (fixedCheck fc f1 B u).1 = (fixedCheck fc f2 B u).1 ∧
      (fixedCheck fc f1 B u).2 B = (fixedCheck fc f2 B u).2 B ∧
      (slidingCheck sc g1 B u).1 = (slidingCheck sc g2 B u).1 ∧
      (slidingCheck sc g1 B u).2 B = (slidingCheck sc g2 B u).2 B := by
  refine ⟨?_, ?_, ?_, ?_, ?_, ?_⟩
  · exact fixedCheck_other fc s A B t (fun h => hAB h.symm)
  · exact slidingCheck_other sc s2 A B t (fun h => hAB h.symm)
  · rw [fixedCheck_fst, fixedCheck_fst, hf]
  · rw [fixedCheck_self, fixedCheck_self, hf]
  · rw [slidingCheck_fst, slidingCheck_fst, hg]
  · rw [slidingCheck_self, slidingCheck_self, hg]

/-- Claim C8 witness: concrete independent stores for two clients 0 and 1. -/
theorem claim_C8_witness :
    (0 : Nat) ≠ 1 ∧
      ((fixedCheck { limit := 1, windowMs := 10 }
            (fun _ => some { count := 1, startTime := 0 }) 0 5).2 1 =
          (fun _ => some ({ count := 1, startTime := 0 } : FixedRec)) 1 ∧
        (slidingCheck { maxRequests := 1, windowMs := 10 }
            (fun _ => some [3]) 0 5).2 1 = (fun _ => some ([3] : List Int)) 1 ∧
        (fixedCheck { limit := 1, windowMs := 10 }
            (fun _ => some { count := 1, startTime := 0 }) 1 5).1 =
          (fixedCheck { limit := 1, windowMs := 10 }
            (fun q => if q = (1 : Nat) then some { count := 1, startTime := 0 }
              else none) 1 5).1 ∧
        (fixedCheck { limit := 1, windowMs := 10 }
            (fun _ => some { count := 1, startTime := 0 }) 1 5).2 1 =
          (fixedCheck { limit := 1, windowMs := 10 }
            (fun q => if q = (1 : Nat) then some { count := 1, startTime := 0 }
              else none) 1 5).2 1 ∧
        (slidingCheck { maxRequests := 1, windowMs := 10 }
            (fun _ => some [3]) 1 5).1 =
          (slidingCheck { maxRequests := 1, windowMs := 10 }
            (fun q => if q = (1 : Nat) then some [3] else none) 1 5).1 ∧
        (slidingCheck { maxRequests := 1, windowMs := 10 }
            (fun _ => some [3]) 1 5).2 1 =
          (slidingCheck { maxRequests := 1, windowMs := 10 }
            (fun q => if q = (1 : Nat) then some [3] else none) 1 5).2 1) :=
  ⟨by decide,
    claim_C8 { limit := 1, windowMs := 10 } { maxRequests := 1, windowMs := 10 }
      (fun _ => some { count := 1, startTime := 0 }) (fun _ => some [3])
      (fun _ => some { count := 1, startTime := 0 })
      (fun q => if q = (1 : Nat) then some { count := 1, startTime := 0 } else none)
      (fun _ => some [3]) (fun q => if q = (1 : Nat) then some [3] else none)
      0 1 5 5 (by decide) (by decide) (by decide)⟩

/-- Claim C9: in the fixed-window implementation, once a request of a
client is rejected, no later request of that client is admitted while its
timestamp is still within one window length of the current window start:
the budget stays exhausted until the window expires. -/
theorem claim_C9 (cfg : FixedConfig) (r : FixedRec) (t : Int) (ts : List Int)
    (hrej : (fixedStep cfg (some r) t).1 = false)
    (hmono : (t :: ts).Pairwise (· ≤ ·)) :
    ((fixedRunRec cfg (fixedStep cfg (some r) t).2 ts).2).countP
        (fun x => decide (x - (fixedStep cfg (some r) t).2.startTime <
          cfg.windowMs)) = 0 := by
  apply List.countP_eq_zero.mpr
  intro x hx
  have hcnt := fixedStep_reject_count cfg (some r) t hrej
  have hpw2 : ts.Pairwise (· ≤ ·) := (List.pairwise_cons.mp hmono).2
  have h2 := fixedRunRec_reject_persists cfg ts (fixedStep cfg (some r) t).2 hpw2 hcnt x hx
  simp only [decide_eq_true_eq]
  omega

/-- Claim C9 witness: after a rejection at time 5 (limit 1, window 1000,
window start 0), the follow-up requests at times 6 and 7 admit nothing
within the window. -/
theorem claim_C9_witness :
    (fixedStep { limit := 1, windowMs := 1000 }
        (some { count := 1, startTime := 0 }) 5).1 = false ∧
      ([5, 6, 7] : List Int).Pairwise (· ≤ ·) ∧
      ((fixedRunRec { limit := 1, windowMs := 1000 }
            (fixedStep { limit := 1, windowMs := 1000 }
              (some { count := 1, startTime := 0 }) 5).2 [6, 7]).2).countP
          (fun x => decide (x - (fixedStep { limit := 1, windowMs := 1000 }
            (some { count := 1, startTime := 0 }) 5).2.startTime < 1000)) = 0 :=
  ⟨by decide, by decide,
    claim_C9 { limit := 1, windowMs := 1000 } { count := 1, startTime := 0 } 5 [6, 7]
      (by decide) (by decide)⟩

/-- Claim C10 witness: two requests admitted at time 3 with limit 2 and
window 7; a request at time 10 is admitted again. -/
theorem claim_C10_witness :
    (fun q => if q = (0 : Nat) then some [3, 3] else none) 0 =
        some (List.replicate 2 (3 : Int)) ∧ 0 < 2 ∧
      (prune 7 (3 + 7) (List.replicate 2 (3 : Int)) = [] ∧
        (slidingCheck { maxRequests := 2, windowMs := 7 }
            (fun q => if q = (0 : Nat) then some [3, 3] else none) 0 (3 + 7)).1 = true) :=
  ⟨by decide, by decide,
    claim_C10 { maxRequests := 2, windowMs := 7 }
      (fun q => if q = (0 : Nat) then some [3, 3] else none) 0 3 (by decide) (by decide)⟩

end RateLimiter
